import Mathlib

/-!
Verification of the sales-scraper batch scraping pipeline.

This file is a shallow embedding of the two API route variants of the
repository: the windowed-concurrent route (src/app/api/scrape/route.ts)
and the strictly sequential route (src/unnamed/part_000).  Network
activity is modelled by an oracle assigning to each request position the
outcome the fetch call would produce: an HTTP response (status and body)
or a thrown value.  Every pattern literal in the two registries is a
case-insensitive literal substring, so regex matching is modelled as
substring search over lower-cased text.
-/

/-- Character-level test that the first list occurs at the start of the
second; models the JS String.startsWith check used for URL resolution. -/
def prefMatch : List Char → List Char → Bool
  | [], _ => true
  | _ :: _, [] => false
  | a :: as, b :: bs => a == b && prefMatch as bs

/-- Character-level contiguous substring search; models JS String.includes
and matching of a literal (case-folded) regular expression. -/
def subMatch (pat : List Char) : List Char → Bool
  | [] => prefMatch pat []
  | b :: bs => prefMatch pat (b :: bs) || subMatch pat bs

/-- String wrapper for subMatch. -/
def subMatchS (pat s : String) : Bool :=
  subMatch pat.data s.data

/-- String wrapper for prefMatch; startsWithS s pre means s starts with pre. -/
def startsWithS (s pre : String) : Bool :=
  prefMatch pre.data s.data

/-- Model of JS toLowerCase, applied character-wise. -/
def lowerContent (s : String) : String :=
  ⟨s.data.map Char.toLower⟩

/-- Model of JS slice from position zero: keep at most n characters. -/
def sliceTo (n : Nat) (s : String) : String :=
  ⟨s.data.take n⟩

/-- Map over a list while supplying the running position, starting at i;
models a loop body receiving both the element and its array index. -/
def mapIdxFrom {α β : Type} (f : Nat → α → β) : Nat → List α → List β
  | _, [] => []
  | i, a :: as => f i a :: mapIdxFrom f (i + 1) as

/-- Result status of one domain, done or error. -/
inductive ScrapeStatus where
  | done
  | error
deriving DecidableEq, Repr

/-- The unit of result streamed back to the caller (route.ts shape):
domain echoed from the input, index of the domain in the request,
the two detected portal lists, and an optional failure description. -/
structure ScrapeOutcome where
  domain : String
  index : Nat
  status : ScrapeStatus
  paymentPortals : List String
  psaPortals : List String
  error : Option String
deriving DecidableEq, Repr

/-- One named detector of the registry: a vendor name and its ordered
pattern list.  All regex literals of the source are case-insensitive
literal substrings, stored here lower-cased. -/
structure VendorDef where
  name : String
  patterns : List String
deriving DecidableEq, Repr

/-- PAYMENT_PATTERNS of src/app/api/scrape/route.ts, in declaration order. -/
def PAYMENT_PATTERNS : List VendorDef :=
  [ ⟨"Stripe", ["stripe.com", "js.stripe.com", "checkout.stripe.com", "stripe("]⟩,
    ⟨"PayPal", ["paypal.com", "paypalobjects.com", "paypal.me"]⟩,
    ⟨"Square", ["square.com", "squareup.com", "squarecdn.com"]⟩,
    ⟨"Braintree", ["braintree", "braintreegateway.com"]⟩,
    ⟨"Adyen", ["adyen.com", "adyencheckout"]⟩,
    ⟨"Authorize.net", ["authorize.net", "authorizenet"]⟩,
    ⟨"Shopify Payments", ["cdn.shopify.com", "checkout.shopify.com", "shopify"]⟩,
    ⟨"WooCommerce", ["woocommerce", "wc-ajax"]⟩ ]

/-- PSA_PATTERNS of src/app/api/scrape/route.ts, in declaration order. -/
def PSA_PATTERNS : List VendorDef :=
  [ ⟨"ConnectWise", ["connectwise", "screenconnect"]⟩,
    ⟨"Autotask", ["autotask"]⟩,
    ⟨"Syncro", ["syncromsp", "syncro"]⟩,
    ⟨"Datto", ["datto.com", "datto"]⟩,
    ⟨"Kaseya", ["kaseya"]⟩,
    ⟨"NinjaRMM", ["ninjarmm", "ninjaone"]⟩,
    ⟨"Freshservice", ["freshservice", "freshworks", "freshdesk"]⟩,
    ⟨"Zendesk", ["zendesk", "zdassets.com"]⟩,
    ⟨"ServiceNow", ["servicenow", "service-now"]⟩,
    ⟨"HaloPSA", ["halopsa", "haloitsm"]⟩,
    ⟨"Atera", ["atera"]⟩ ]

/-- Does at least one of the vendor patterns occur in the (already
lower-cased) content?  Models the inner pattern loop of detectPortals:
the source breaks at the first matching pattern, which is observably
the same as testing whether any pattern matches. -/
def vendorMatches (lw : String) (v : VendorDef) : Bool :=
  v.patterns.any (fun p => subMatchS p lw)

/-- Pair of detected portal name lists. -/
structure Detection where
  paymentPortals : List String
  psaPortals : List String
deriving DecidableEq, Repr

/-- Accumulator loop of detectPortals (route.ts): walk the registry in
declaration order, and for each vendor with a matching pattern push its
name unless already present. -/
def detectLoop (lw : String) : List VendorDef → List String → List String
  | [], acc => acc
  | v :: vs, acc =>
    if vendorMatches lw v then
      if v.name ∈ acc then detectLoop lw vs acc
      else detectLoop lw vs (acc ++ [v.name])
    else detectLoop lw vs acc

/-- detectPortals of src/app/api/scrape/route.ts: lower-case the content
once, then scan the payment registry and the PSA registry. -/
def detectPortals (content : String) : Detection :=
  { paymentPortals := detectLoop (lowerContent content) PAYMENT_PATTERNS []
    psaPortals := detectLoop (lowerContent content) PSA_PATTERNS [] }

/-- A value thrown by the JS runtime during a fetch: either an Error
object with name and message, or some non-Error value. -/
inductive Thrown where
  | jsError (name : String) (message : String)
  | other
deriving DecidableEq, Repr

/-- What the network produced for one fetch call: an HTTP response with
status and body text, or a thrown value (timeout abort, DNS failure, ...). -/
inductive FetchOutcome where
  | resp (status : Nat) (body : String)
  | fail (t : Thrown)
deriving DecidableEq, Repr

/-- Response.ok of the fetch API: status in the 2xx range. -/
def respOk (status : Nat) : Bool :=
  decide (200 ≤ status) && decide (status < 300)

/-- Error classification of the catch block of scrapeWithFetch
(route.ts lines 202-227). -/
def classifyFetchError : Thrown → String
  | .other => "Unknown error"
  | .jsError nm msg =>
    if nm == "AbortError" then "Timeout"
    else if subMatchS "ENOTFOUND" msg then "DNS error"
    else if subMatchS "ECONNREFUSED" msg then "Connection refused"
    else if subMatchS "CERT" msg || subMatchS "SSL" msg then "SSL error"
    else sliceTo 50 msg

/-- Classification following the words of the spec taxonomy (sections 4.3
and 7), which also lists a connection-reset bucket; kept for refinement
comparison with classifyFetchError, the classification the code performs. -/
def specClassifyFetchError : Thrown → String
  | .other => "Unknown error"
  | .jsError nm msg =>
    if nm == "AbortError" then "Timeout"
    else if subMatchS "ENOTFOUND" msg then "DNS error"
    else if subMatchS "ECONNREFUSED" msg then "Connection refused"
    else if subMatchS "CERT" msg || subMatchS "SSL" msg then "SSL error"
    else if subMatchS "ECONNRESET" msg then "Connection reset"
    else sliceTo 50 msg

/-- URL resolution of scrapeWithFetch and scrapeWithFirecrawl: prefix
https:// unless the domain already starts with the literal http. -/
def resolveUrl (domain : String) : String :=
  if startsWithS domain "http" then domain else "https://" ++ domain

/-- Does the string carry an explicit http or https scheme? -/
def hasHttpScheme (domain : String) : Bool :=
  startsWithS domain "http://" || startsWithS domain "https://"

/-- URL resolution as the spec words it: prefix https:// exactly when no
scheme is present.  Kept for refinement comparison with resolveUrl. -/
def specResolveUrl (domain : String) : String :=
  if hasHttpScheme domain then domain else "https://" ++ domain

/-- scrapeWithFetch of route.ts, with the network call replaced by its
outcome: a 2xx response is classified, a non-2xx response produces an
error outcome carrying the HTTP status, and a thrown value is classified
by the catch block.  The function is total: every fetch outcome maps to
a ScrapeOutcome. -/
def scrapeWithFetch (r : FetchOutcome) (domain : String) (index : Nat) : ScrapeOutcome :=
  match r with
  | .resp status body =>
    if respOk status then
      { domain := domain, index := index, status := .done
        paymentPortals := (detectPortals body).paymentPortals
        psaPortals := (detectPortals body).psaPortals
        error := none }
    else
      { domain := domain, index := index, status := .error
        error := some ("HTTP " ++ toString status)
        paymentPortals := [], psaPortals := [] }
  | .fail t =>
      { domain := domain, index := index, status := .error
        error := some (classifyFetchError t)
        paymentPortals := [], psaPortals := [] }

/-- What the Firecrawl client produced: rendered HTML, or a thrown value. -/
inductive FirecrawlResult where
  | ok (html : String)
  | thrown (t : Thrown)
deriving DecidableEq, Repr

/-- scrapeWithFirecrawl of route.ts, with the service call replaced by its
outcome; a thrown Error becomes its message truncated to 50 characters,
a non-Error thrown value becomes the fixed Firecrawl error text. -/
def scrapeWithFirecrawl (r : FirecrawlResult) (domain : String) (index : Nat) : ScrapeOutcome :=
  match r with
  | .ok html =>
      { domain := domain, index := index, status := .done
        paymentPortals := (detectPortals html).paymentPortals
        psaPortals := (detectPortals html).psaPortals
        error := none }
  | .thrown (.jsError _ msg) =>
      { domain := domain, index := index, status := .error
        error := some (sliceTo 50 msg)
        paymentPortals := [], psaPortals := [] }
  | .thrown .other =>
      { domain := domain, index := index, status := .error
        error := some "Firecrawl error"
        paymentPortals := [], psaPortals := [] }

/-- SEQ payment registry: PAYMENT_PATTERNS of src/unnamed/part_000. -/
def SEQ_PAYMENT_PATTERNS : List VendorDef :=
  [ ⟨"Stripe", ["stripe.com", "js.stripe.com", "checkout.stripe.com"]⟩,
    ⟨"PayPal", ["paypal.com", "paypalobjects.com"]⟩,
    ⟨"Square", ["square.com", "squareup.com"]⟩,
    ⟨"Braintree", ["braintree", "braintreegateway"]⟩ ]

/-- SEQ PSA registry: PSA_PATTERNS of src/unnamed/part_000. -/
def SEQ_PSA_PATTERNS : List VendorDef :=
  [ ⟨"ConnectWise", ["connectwise", "screenconnect"]⟩,
    ⟨"Autotask", ["autotask"]⟩,
    ⟨"Syncro", ["syncromsp", "syncro"]⟩,
    ⟨"Datto", ["datto.com"]⟩,
    ⟨"Kaseya", ["kaseya"]⟩,
    ⟨"Freshservice", ["freshservice", "freshworks"]⟩,
    ⟨"Zendesk", ["zendesk"]⟩ ]

/-- detectPortals of src/unnamed/part_000: for each vendor, push its name
when some pattern matches; this loop is exactly a filter followed by a
projection to names.  The regexes carry the i flag, so matching is over
lower-cased text. -/
def seqDetectPortals (html : String) : Detection :=
  { paymentPortals :=
      (SEQ_PAYMENT_PATTERNS.filter (vendorMatches (lowerContent html))).map VendorDef.name
    psaPortals :=
      (SEQ_PSA_PATTERNS.filter (vendorMatches (lowerContent html))).map VendorDef.name }

/-- Outcome of the sequential scrapeDomain before the route adds the
index at emission time. -/
structure SeqOutcome0 where
  domain : String
  status : ScrapeStatus
  paymentPortals : List String
  psaPortals : List String
  error : Option String
deriving DecidableEq, Repr

/-- scrapeDomain of src/unnamed/part_000: a non-2xx status throws an
Error carrying the HTTP status, and the catch block turns any thrown
Error into an error outcome with the error message, or the fixed
Unknown error text for a non-Error value. -/
def seqScrapeDomain (r : FetchOutcome) (domain : String) : SeqOutcome0 :=
  match r with
  | .resp status body =>
    if respOk status then
      { domain := domain, status := .done
        paymentPortals := (seqDetectPortals body).paymentPortals
        psaPortals := (seqDetectPortals body).psaPortals
        error := none }
    else
      { domain := domain, status := .error
        error := some ("HTTP " ++ toString status)
        paymentPortals := [], psaPortals := [] }
  | .fail (.jsError _ msg) =>
      { domain := domain, status := .error, error := some msg
        paymentPortals := [], psaPortals := [] }
  | .fail .other =>
      { domain := domain, status := .error, error := some "Unknown error"
        paymentPortals := [], psaPortals := [] }

/-- Spreading of the sequential outcome into the result event, which adds
the loop index. -/
def withIndex (o : SeqOutcome0) (k : Nat) : ScrapeOutcome :=
  { domain := o.domain, index := k, status := o.status
    paymentPortals := o.paymentPortals, psaPortals := o.psaPortals
    error := o.error }

/-- CONCURRENT_LIMIT of route.ts. -/
def CONCURRENT_LIMIT : Nat := 5

/-- Per-domain scraper of the direct-fetch configuration (firecrawl not
configured), as selected by scrapeDomain in route.ts: position k of the
request is scraped against the network outcome the oracle assigns to k. -/
def fetchScrape (env : Nat → FetchOutcome) : String → Nat → ScrapeOutcome :=
  fun d k => scrapeWithFetch (env k) d k

/-- processInParallel of route.ts: slice the remaining domains into a
window of CONCURRENT_LIMIT, run the scraper on each element of the window
tagged with its request position, then continue past the window.
Promise.all resolves with results in input order, so the window yields
its outcomes in input order (proved against a completion-order model
below). -/
def processInParallel (scrape : String → Nat → ScrapeOutcome) (i : Nat) :
    List String → List ScrapeOutcome
  | [] => []
  | d :: ds =>
    mapIdxFrom (fun k x => scrape x k) i ((d :: ds).take CONCURRENT_LIMIT)
      ++ processInParallel scrape (i + CONCURRENT_LIMIT) ((d :: ds).drop CONCURRENT_LIMIT)
termination_by l => l.length
decreasing_by simp [CONCURRENT_LIMIT]; omega

/-- All outcomes of one batch under the direct-fetch configuration. -/
def runResults (env : Nat → FetchOutcome) (domains : List String) : List ScrapeOutcome :=
  processInParallel (fetchScrape env) 0 domains

/-- One server-sent event of the response stream. -/
inductive StreamEvent where
  | info (scraper : String)
  | processing (domain : String) (index : Nat)
  | result (o : ScrapeOutcome)
  | batchComplete
deriving DecidableEq, Repr

def isResultEv : StreamEvent → Bool
  | .result _ => true
  | _ => false

def isCompleteEv : StreamEvent → Bool
  | .batchComplete => true
  | _ => false

/-- The outcomes carried by the result events of an event list, in order. -/
def resultsOf (evs : List StreamEvent) : List ScrapeOutcome :=
  evs.filterMap (fun e =>
    match e with
    | .result o => some o
    | _ => none)

/-- Event sequence produced by the stream of route.ts POST in the
direct-fetch configuration: the info event, one result event per outcome
of processInParallel, then the terminal batch-complete marker. -/
def streamEvents (env : Nat → FetchOutcome) (domains : List String) : List StreamEvent :=
  StreamEvent.info "fetch"
    :: ((runResults env domains).map StreamEvent.result ++ [StreamEvent.batchComplete])

/-- Response of a route call: either the event stream (with its
closed-after-terminator flag) or a terminal non-stream error response. -/
inductive ApiResponse where
  | streamResp (events : List StreamEvent) (closed : Bool)
  | errorResp (status : Nat)
deriving DecidableEq, Repr

/-- Zod validation of the request body (requestSchema): the body must be
an object with a domains array of between 1 and 30 strings; none models
a body of the wrong shape. -/
def parseRequest (body : Option (List String)) : Except String (List String) :=
  match body with
  | none => .error "Invalid request"
  | some ds =>
    if 1 ≤ ds.length ∧ ds.length ≤ 30 then .ok ds else .error "Invalid request"

/-- POST of route.ts: validation failure produces a status 400 JSON
response before the stream is created; otherwise the stream is produced
and closed after the terminal marker. -/
def POST (body : Option (List String)) (env : Nat → FetchOutcome) : ApiResponse :=
  match parseRequest body with
  | .error _ => .errorResp 400
  | .ok ds => .streamResp (streamEvents env ds) true

/-- Per-position outcome of the sequential route, index attached at
emission as in src/unnamed/part_000. -/
def seqOutcome (env : Nat → FetchOutcome) (k : Nat) (d : String) : ScrapeOutcome :=
  withIndex (seqScrapeDomain (env k) d) k

/-- Body of the sequential stream: a processing event then a result event
per domain, in request order. -/
def seqBody (env : Nat → FetchOutcome) : Nat → List String → List StreamEvent
  | _, [] => []
  | i, d :: ds =>
    StreamEvent.processing d i
      :: StreamEvent.result (seqOutcome env i d)
      :: seqBody env (i + 1) ds

/-- Event sequence of the sequential route stream. -/
def seqEvents (env : Nat → FetchOutcome) (domains : List String) : List StreamEvent :=
  seqBody env 0 domains ++ [StreamEvent.batchComplete]

/-- POST of src/unnamed/part_000. -/
def seqPOST (body : Option (List String)) (env : Nat → FetchOutcome) : ApiResponse :=
  match parseRequest body with
  | .error _ => .errorResp 400
  | .ok ds => .streamResp (seqEvents env ds) true

/-- Attach to each element its slot, counting from i; slots are the array
positions Promise.all writes the results into. -/
def withSlots {α : Type} : Nat → List α → List (Nat × α)
  | _, [] => []
  | i, a :: as => (i, a) :: withSlots (i + 1) as

/-- Resolution value of Promise.all over k slots, reconstructed from the
completed calls in their completion order: each slot takes the value of
the completed call carrying that slot, independently of where in the
completion sequence it appears. -/
def promiseAll (completions : List (Nat × ScrapeOutcome)) (k : Nat) : List ScrapeOutcome :=
  (List.range k).filterMap
    (fun slot => (completions.find? (fun c => c.1 == slot)).map Prod.snd)

/-- processInParallel with the completion order of each window made
explicit: sched reorders the slotted window tasks into the order the
concurrent calls happen to finish, and the window emits the Promise.all
resolution value computed from that completion sequence. -/
def processInParallelSched (scrape : String → Nat → ScrapeOutcome)
    (sched : Nat → List (Nat × ScrapeOutcome) → List (Nat × ScrapeOutcome)) (i : Nat) :
    List String → List ScrapeOutcome
  | [] => []
  | d :: ds =>
    promiseAll
        (sched i (withSlots 0 (mapIdxFrom (fun k x => scrape x k) i ((d :: ds).take CONCURRENT_LIMIT))))
        (mapIdxFrom (fun k x => scrape x k) i ((d :: ds).take CONCURRENT_LIMIT)).length
      ++ processInParallelSched scrape sched (i + CONCURRENT_LIMIT) ((d :: ds).drop CONCURRENT_LIMIT)
termination_by l => l.length
decreasing_by simp [CONCURRENT_LIMIT]; omega

/-- One step of the observable execution of the windowed orchestrator:
either a fetch for a given domain and request position begins, or an
outcome is emitted. -/
inductive Step where
  | start (domain : String) (index : Nat)
  | emit (o : ScrapeOutcome)
deriving DecidableEq, Repr

/-- Steps of one window: the window map synchronously begins every fetch
of the window, then the awaited Promise.all makes every outcome of the
window available and the loop emits them. -/
def windowTrace (scrape : String → Nat → ScrapeOutcome) (i : Nat) (chunk : List String) :
    List Step :=
  mapIdxFrom (fun k d => Step.start d k) i chunk
    ++ mapIdxFrom (fun k d => Step.emit (scrape d k)) i chunk

/-- Execution trace of processInParallel: the whole window is started,
resolved and emitted before the loop advances to the next window. -/
def execTrace (scrape : String → Nat → ScrapeOutcome) (i : Nat) : List String → List Step
  | [] => []
  | d :: ds =>
    windowTrace scrape i ((d :: ds).take CONCURRENT_LIMIT)
      ++ execTrace scrape (i + CONCURRENT_LIMIT) ((d :: ds).drop CONCURRENT_LIMIT)
termination_by l => l.length
decreasing_by simp [CONCURRENT_LIMIT]; omega

/-- Events observable from a route response: the stream events of a
stream response, nothing for a non-stream error response. -/
def emittedEvents : ApiResponse → List StreamEvent
  | .streamResp evs _ => evs
  | .errorResp _ => []

theorem string_data_append (s t : String) : (s ++ t).data = s.data ++ t.data := by
  cases s; cases t; rfl

theorem prefMatch_iff (p : List Char) : ∀ s, prefMatch p s = true ↔ ∃ t, s = p ++ t := by
  induction p with
  | nil =>
    intro s
    simp [prefMatch]
  | cons a as ih =>
    intro s
    cases s with
    | nil =>
      simp [prefMatch]
    | cons b bs =>
      simp only [prefMatch, Bool.and_eq_true, beq_iff_eq, ih, List.cons_append,
        List.cons.injEq]
      constructor
      · rintro ⟨rfl, t, rfl⟩
        exact ⟨t, rfl, rfl⟩
      · rintro ⟨t, rfl, rfl⟩
        exact ⟨rfl, t, rfl⟩

theorem subMatch_iff (pat : List Char) :
    ∀ s, subMatch pat s = true ↔ ∃ u v, s = u ++ pat ++ v := by
  intro s
  induction s with
  | nil =>
    simp only [subMatch, prefMatch_iff]
    constructor
    · rintro ⟨t, ht⟩
      exact ⟨[], t, by simpa using ht⟩
    · rintro ⟨u, v, huv⟩
      rcases List.append_eq_nil.mp huv.symm with ⟨h1, h2⟩
      rcases List.append_eq_nil.mp h1 with ⟨rfl, rfl⟩
      exact ⟨[], by simp⟩
  | cons b bs ih =>
    simp only [subMatch, Bool.or_eq_true, prefMatch_iff, ih]
    constructor
    · rintro (⟨t, ht⟩ | ⟨u, v, huv⟩)
      · exact ⟨[], t, by simpa using ht⟩
      · exact ⟨b :: u, v, by simp [huv]⟩
    · rintro ⟨u, v, huv⟩
      cases u with
      | nil =>
        exact Or.inl ⟨v, by simpa using huv⟩
      | cons x u =>
        simp only [List.cons_append, List.cons.injEq] at huv
        exact Or.inr ⟨u, v, huv.2⟩

theorem subMatch_trans {p q s : List Char} (h1 : subMatch p q = true)
    (h2 : subMatch q s = true) : subMatch p s = true := by
  rcases (subMatch_iff p q).mp h1 with ⟨u1, v1, hq⟩
  rcases (subMatch_iff q s).mp h2 with ⟨u2, v2, hs⟩
  exact (subMatch_iff p s).mpr ⟨u2 ++ u1, v1 ++ v2, by rw [hs, hq]; simp⟩

theorem subMatch_map (f : Char → Char) {p s : List Char} (h : subMatch p s = true) :
    subMatch (p.map f) (s.map f) = true := by
  rcases (subMatch_iff p s).mp h with ⟨u, v, rfl⟩
  exact (subMatch_iff (p.map f) _).mpr ⟨u.map f, v.map f, by simp⟩

theorem subMatch_append_self (pre pat : List Char) :
    subMatch pat (pre ++ pat) = true :=
  (subMatch_iff pat _).mpr ⟨pre, [], by simp⟩

theorem subMatchS_append_self (pre pat : String) :
    subMatchS pat (pre ++ pat) = true := by
  unfold subMatchS
  rw [string_data_append]
  exact subMatch_append_self pre.data pat.data

theorem prefMatch_trans {p q s : List Char} (h1 : prefMatch p q = true)
    (h2 : prefMatch q s = true) : prefMatch p s = true := by
  rcases (prefMatch_iff p q).mp h1 with ⟨t1, rfl⟩
  rcases (prefMatch_iff (p ++ t1) s).mp h2 with ⟨t2, rfl⟩
  exact (prefMatch_iff p _).mpr ⟨t1 ++ t2, by simp⟩

theorem sliceTo_length_le (n : Nat) (s : String) : (sliceTo n s).length ≤ n := by
  show (s.data.take n).length ≤ n
  simp [List.length_take]

theorem mapIdxFrom_length {α β : Type} (f : Nat → α → β) :
    ∀ (l : List α) (i : Nat), (mapIdxFrom f i l).length = l.length := by
  intro l
  induction l with
  | nil => intro i; rfl
  | cons a as ih => intro i; simp [mapIdxFrom, ih]

theorem mapIdxFrom_getElem? {α β : Type} (f : Nat → α → β) :
    ∀ (l : List α) (i k : Nat), (mapIdxFrom f i l)[k]? = (l[k]?).map (f (i + k)) := by
  intro l
  induction l with
  | nil => intro i k; simp [mapIdxFrom]
  | cons a as ih =>
    intro i k
    cases k with
    | zero => simp [mapIdxFrom]
    | succ k =>
      have hik : i + (k + 1) = (i + 1) + k := by omega
      simp only [mapIdxFrom, List.getElem?_cons_succ, ih (i + 1) k, hik]

theorem mem_mapIdxFrom {α β : Type} (f : Nat → α → β) :
    ∀ (l : List α) (i : Nat) (x : β),
      x ∈ mapIdxFrom f i l ↔ ∃ k, ∃ h : k < l.length, x = f (i + k) (l.get ⟨k, h⟩) := by
  intro l
  induction l with
  | nil =>
    intro i x
    simp [mapIdxFrom]
  | cons a as ih =>
    intro i x
    simp only [mapIdxFrom, List.mem_cons, ih (i + 1)]
    constructor
    · rintro (rfl | ⟨k, h, rfl⟩)
      · exact ⟨0, by simp, by simp⟩
      · exact ⟨k + 1, by simpa using h, by simp [Nat.add_assoc, Nat.add_comm 1 k]⟩
    · rintro ⟨k, h, rfl⟩
      cases k with
      | zero => exact Or.inl (by simp)
      | succ k =>
        refine Or.inr ⟨k, by simpa using h, ?_⟩
        simp [Nat.add_assoc, Nat.add_comm 1 k]

theorem mapIdxFrom_take_drop {α β : Type} (f : Nat → α → β) :
    ∀ (l : List α) (m i : Nat),
      mapIdxFrom f i (l.take m) ++ mapIdxFrom f (i + m) (l.drop m) = mapIdxFrom f i l := by
  intro l
  induction l with
  | nil => intro m i; simp [mapIdxFrom]
  | cons a as ih =>
    intro m i
    cases m with
    | zero => simp [mapIdxFrom]
    | succ m =>
      have him : i + (m + 1) = (i + 1) + m := by omega
      simp only [List.take_succ_cons, List.drop_succ_cons, mapIdxFrom, List.cons_append,
        him, ih m (i + 1)]

theorem scrapeWithFetch_index (r : FetchOutcome) (d : String) (i : Nat) :
    (scrapeWithFetch r d i).index = i := by
  cases r with
  | resp status body =>
    simp only [scrapeWithFetch]
    split <;> rfl
  | fail t => rfl

theorem scrapeWithFetch_domain (r : FetchOutcome) (d : String) (i : Nat) :
    (scrapeWithFetch r d i).domain = d := by
  cases r with
  | resp status body =>
    simp only [scrapeWithFetch]
    split <;> rfl
  | fail t => rfl

theorem seqScrapeDomain_domain (r : FetchOutcome) (d : String) :
    (seqScrapeDomain r d).domain = d := by
  cases r with
  | resp status body =>
    simp only [seqScrapeDomain]
    split <;> rfl
  | fail t => cases t <;> rfl

theorem processInParallel_eq_aux (scrape : String → Nat → ScrapeOutcome) :
    ∀ (n : Nat) (ds : List String), ds.length ≤ n → ∀ (i : Nat),
      processInParallel scrape i ds = mapIdxFrom (fun k d => scrape d k) i ds := by
  intro n
  induction n with
  | zero =>
    intro ds h i
    cases ds with
    | nil => simp [processInParallel, mapIdxFrom]
    | cons d rest => simp at h
  | succ n ih =>
    intro ds h i
    cases ds with
    | nil => simp [processInParallel, mapIdxFrom]
    | cons d rest =>
      rw [processInParallel]
      rw [ih ((d :: rest).drop CONCURRENT_LIMIT)
        (by simp [CONCURRENT_LIMIT] at h ⊢; omega) (i + CONCURRENT_LIMIT)]
      exact mapIdxFrom_take_drop _ (d :: rest) CONCURRENT_LIMIT i

theorem processInParallel_eq (scrape : String → Nat → ScrapeOutcome)
    (ds : List String) (i : Nat) :
    processInParallel scrape i ds = mapIdxFrom (fun k d => scrape d k) i ds :=
  processInParallel_eq_aux scrape ds.length ds (Nat.le_refl _) i

theorem runResults_length (env : Nat → FetchOutcome) (domains : List String) :
    (runResults env domains).length = domains.length := by
  rw [runResults, processInParallel_eq, mapIdxFrom_length]

theorem runResults_getElem? (env : Nat → FetchOutcome) (domains : List String) (k : Nat) :
    (runResults env domains)[k]? = (domains[k]?).map (fun d => scrapeWithFetch (env k) d k) := by
  rw [runResults, processInParallel_eq, mapIdxFrom_getElem?]
  simp [fetchScrape]

theorem mapIdxFrom_map_index (env : Nat → FetchOutcome) :
    ∀ (l : List String) (i : Nat),
      (mapIdxFrom (fun k d => fetchScrape env d k) i l).map ScrapeOutcome.index
        = List.range' i l.length := by
  intro l
  induction l with
  | nil => intro i; rfl
  | cons d rest ih =>
    intro i
    simp only [mapIdxFrom, List.map_cons, List.length_cons, List.range'_succ, ih (i + 1)]
    simp [fetchScrape, scrapeWithFetch_index]

theorem runResults_map_index (env : Nat → FetchOutcome) (domains : List String) :
    (runResults env domains).map ScrapeOutcome.index = List.range domains.length := by
  rw [runResults, processInParallel_eq, mapIdxFrom_map_index, List.range_eq_range']

theorem detectLoop_eq (lw : String) :
    ∀ (vs : List VendorDef) (acc : List String),
      (∀ v ∈ vs, v.name ∉ acc) → ((vs.map VendorDef.name).Nodup) →
      detectLoop lw vs acc = acc ++ (vs.filter (vendorMatches lw)).map VendorDef.name := by
  intro vs
  induction vs with
  | nil =>
    intro acc h1 h2
    simp [detectLoop]
  | cons v rest ih =>
    intro acc h1 h2
    simp only [List.map_cons, List.nodup_cons] at h2
    by_cases hm : vendorMatches lw v
    · have hnotin : v.name ∉ acc := h1 v (List.mem_cons_self v rest)
      rw [detectLoop]
      rw [if_pos hm, if_neg hnotin]
      rw [ih (acc ++ [v.name]) ?_ h2.2]
      · simp [List.filter_cons, hm]
      · intro w hw
        simp only [List.mem_append, List.mem_singleton]
        rintro (hin | heq)
        · exact h1 w (List.mem_cons_of_mem v hw) hin
        · exact h2.1 (heq ▸ List.mem_map_of_mem VendorDef.name hw)
    · rw [detectLoop, if_neg hm]
      rw [ih acc (fun w hw => h1 w (List.mem_cons_of_mem v hw)) h2.2]
      simp [List.filter_cons, hm]

theorem vendorMatches_false_of (lw : String) (v : VendorDef)
    (h : ∀ p ∈ v.patterns, subMatchS p lw = false) : vendorMatches lw v = false := by
  simp only [vendorMatches, List.any_eq_false]
  intro p hp
  simp [h p hp]

theorem detectPortals_payment (content : String) :
    (detectPortals content).paymentPortals
      = (PAYMENT_PATTERNS.filter (vendorMatches (lowerContent content))).map VendorDef.name := by
  rw [detectPortals]
  exact detectLoop_eq (lowerContent content) PAYMENT_PATTERNS [] (by simp) (by decide)

theorem detectPortals_psa (content : String) :
    (detectPortals content).psaPortals
      = (PSA_PATTERNS.filter (vendorMatches (lowerContent content))).map VendorDef.name := by
  rw [detectPortals]
  exact detectLoop_eq (lowerContent content) PSA_PATTERNS [] (by simp) (by decide)

theorem resultsOf_map_result (l : List ScrapeOutcome) :
    resultsOf (l.map StreamEvent.result) = l := by
  induction l with
  | nil => rfl
  | cons o rest ih => simp [resultsOf, List.filterMap_cons] at ih ⊢; exact ih

theorem resultsOf_append (l1 l2 : List StreamEvent) :
    resultsOf (l1 ++ l2) = resultsOf l1 ++ resultsOf l2 := by
  simp [resultsOf, List.filterMap_append]

theorem resultsOf_streamEvents (env : Nat → FetchOutcome) (domains : List String) :
    resultsOf (streamEvents env domains) = runResults env domains := by
  have h0 : resultsOf (streamEvents env domains)
      = resultsOf ((runResults env domains).map StreamEvent.result
          ++ [StreamEvent.batchComplete]) := rfl
  rw [h0, resultsOf_append, resultsOf_map_result,
    show resultsOf [StreamEvent.batchComplete] = [] from rfl, List.append_nil]

theorem countP_map_result (l : List ScrapeOutcome) :
    (l.map StreamEvent.result).countP isResultEv = l.length := by
  induction l with
  | nil => rfl
  | cons o rest ih => simp [List.countP_cons, isResultEv, ih]

theorem countP_complete_map_result (l : List ScrapeOutcome) :
    (l.map StreamEvent.result).countP isCompleteEv = 0 := by
  induction l with
  | nil => rfl
  | cons o rest ih => simp [List.countP_cons, isCompleteEv, ih]

theorem streamEvents_countP_result (env : Nat → FetchOutcome) (domains : List String) :
    (streamEvents env domains).countP isResultEv = domains.length := by
  rw [streamEvents, List.countP_cons, List.countP_append, countP_map_result,
    runResults_length]
  simp [isResultEv, List.countP_cons]

theorem streamEvents_countP_complete (env : Nat → FetchOutcome) (domains : List String) :
    (streamEvents env domains).countP isCompleteEv = 1 := by
  rw [streamEvents, List.countP_cons, List.countP_append, countP_complete_map_result]
  simp [isCompleteEv, List.countP_cons]

theorem result_before_terminator (l : List StreamEvent) (p : Nat) (o : ScrapeOutcome)
    (h : (l ++ [StreamEvent.batchComplete])[p]? = some (StreamEvent.result o)) :
    p < l.length := by
  by_contra hge
  push_neg at hge
  rw [List.getElem?_append_right hge] at h
  rcases hpl : p - l.length with _ | m
  · rw [hpl] at h
    simp at h
  · rw [hpl] at h
    simp at h

theorem terminator_at_end (l : List StreamEvent) :
    (l ++ [StreamEvent.batchComplete])[l.length]? = some StreamEvent.batchComplete := by
  rw [List.getElem?_append_right (Nat.le_refl _)]
  simp

theorem seqBody_countP_result (env : Nat → FetchOutcome) :
    ∀ (ds : List String) (i : Nat), (seqBody env i ds).countP isResultEv = ds.length := by
  intro ds
  induction ds with
  | nil => intro i; rfl
  | cons d rest ih =>
    intro i
    simp [seqBody, List.countP_cons, isResultEv, ih (i + 1)]

theorem seqBody_countP_complete (env : Nat → FetchOutcome) :
    ∀ (ds : List String) (i : Nat), (seqBody env i ds).countP isCompleteEv = 0 := by
  intro ds
  induction ds with
  | nil => intro i; rfl
  | cons d rest ih =>
    intro i
    simp [seqBody, List.countP_cons, isCompleteEv, ih (i + 1)]

theorem seqEvents_countP_result (env : Nat → FetchOutcome) (domains : List String) :
    (seqEvents env domains).countP isResultEv = domains.length := by
  rw [seqEvents, List.countP_append, seqBody_countP_result]
  simp [isResultEv, List.countP_cons]

theorem seqEvents_countP_complete (env : Nat → FetchOutcome) (domains : List String) :
    (seqEvents env domains).countP isCompleteEv = 1 := by
  rw [seqEvents, List.countP_append, seqBody_countP_complete]
  simp [isCompleteEv, List.countP_cons]

theorem resultsOf_seqBody (env : Nat → FetchOutcome) :
    ∀ (ds : List String) (i : Nat),
      resultsOf (seqBody env i ds) = mapIdxFrom (fun k d => seqOutcome env k d) i ds := by
  intro ds
  induction ds with
  | nil => intro i; rfl
  | cons d rest ih =>
    intro i
    have h0 : resultsOf (seqBody env i (d :: rest))
        = seqOutcome env i d :: resultsOf (seqBody env (i + 1) rest) := rfl
    rw [h0, ih (i + 1)]
    rfl

theorem resultsOf_seqEvents (env : Nat → FetchOutcome) (domains : List String) :
    resultsOf (seqEvents env domains)
      = mapIdxFrom (fun k d => seqOutcome env k d) 0 domains := by
  rw [seqEvents, resultsOf_append, resultsOf_seqBody,
    show resultsOf [StreamEvent.batchComplete] = [] from rfl, List.append_nil]

theorem seqBody_length (env : Nat → FetchOutcome) :
    ∀ (ds : List String) (i : Nat), (seqBody env i ds).length = 2 * ds.length := by
  intro ds
  induction ds with
  | nil => intro i; rfl
  | cons d rest ih =>
    intro i
    simp [seqBody, ih (i + 1)]
    omega

theorem withSlots_get_mem {α : Type} :
    ∀ (l : List α) (i k : Nat) (h : k < l.length), (i + k, l.get ⟨k, h⟩) ∈ withSlots i l := by
  intro l
  induction l with
  | nil =>
    intro i k h
    simp at h
  | cons a as ih =>
    intro i k h
    cases k with
    | zero => simp [withSlots]
    | succ k =>
      have hik : i + (k + 1) = (i + 1) + k := by omega
      rw [hik]
      exact List.mem_cons_of_mem _ (ih (i + 1) k (by simpa using h))

theorem withSlots_fst_ge {α : Type} :
    ∀ (l : List α) (i j : Nat) (x : α), (j, x) ∈ withSlots i l → i ≤ j := by
  intro l
  induction l with
  | nil =>
    intro i j x h
    simp [withSlots] at h
  | cons a as ih =>
    intro i j x h
    rcases List.mem_cons.mp h with heq | htl
    · cases heq
      exact Nat.le_refl _
    · exact Nat.le_of_succ_le (ih (i + 1) j x htl)

theorem withSlots_unique {α : Type} :
    ∀ (l : List α) (i j : Nat) (x y : α),
      (j, x) ∈ withSlots i l → (j, y) ∈ withSlots i l → x = y := by
  intro l
  induction l with
  | nil =>
    intro i j x y hx hy
    simp [withSlots] at hx
  | cons a as ih =>
    intro i j x y hx hy
    rcases List.mem_cons.mp hx with heqx | htlx
    · rcases List.mem_cons.mp hy with heqy | htly
      · cases heqx; cases heqy; rfl
      · cases heqx
        have := withSlots_fst_ge as (i + 1) i y htly
        omega
    · rcases List.mem_cons.mp hy with heqy | htly
      · cases heqy
        have := withSlots_fst_ge as (i + 1) i x htlx
        omega
      · exact ih (i + 1) j x y htlx htly

theorem filterMap_all_some {α β : Type} :
    ∀ (l : List α) (f : α → Option β) (g : α → β),
      (∀ x ∈ l, f x = some (g x)) → l.filterMap f = l.map g := by
  intro l
  induction l with
  | nil => intro f g h; rfl
  | cons a as ih =>
    intro f g h
    rw [List.filterMap_cons, h a (List.mem_cons_self a as), List.map_cons,
      ih f g (fun x hx => h x (List.mem_cons_of_mem a hx))]

theorem range_map_getElem {α : Type} (dflt : α) :
    ∀ (l : List α), (List.range l.length).map (fun k => (l[k]?).getD dflt) = l := by
  intro l
  induction l with
  | nil => rfl
  | cons a as ih =>
    rw [List.length_cons, List.range_succ_eq_map, List.map_cons, List.map_map]
    have hc : ((fun k => ((a :: as)[k]?).getD dflt) ∘ (fun k => k + 1))
        = fun k => (as[k]?).getD dflt := by
      funext k
      simp
    rw [hc]
    simp only [List.getElem?_cons_zero, Option.getD_some, ih]

theorem promiseAll_perm (tasks : List ScrapeOutcome) (sigma : List (Nat × ScrapeOutcome))
    (h : sigma.Perm (withSlots 0 tasks)) : promiseAll sigma tasks.length = tasks := by
  have dflt : ScrapeOutcome :=
    { domain := "", index := 0, status := .error
      paymentPortals := [], psaPortals := [], error := none }
  have hfind : ∀ (slot : Nat) (hs : slot < tasks.length),
      sigma.find? (fun c => c.1 == slot) = some (slot, tasks.get ⟨slot, hs⟩) := by
    intro slot hs
    have hmem : (slot, tasks.get ⟨slot, hs⟩) ∈ sigma := by
      apply h.mem_iff.mpr
      have := withSlots_get_mem tasks 0 slot hs
      simpa using this
    cases hf : sigma.find? (fun c => c.1 == slot) with
    | none =>
      have hnone := List.find?_eq_none.mp hf (slot, tasks.get ⟨slot, hs⟩) hmem
      simp at hnone
    | some c =>
      have hpc := List.find?_some hf
      have hceq : c.1 = slot := by simpa using hpc
      have hcm : c ∈ sigma := List.mem_of_find?_eq_some hf
      have hcw : (slot, c.2) ∈ withSlots 0 tasks := by
        have := h.mem_iff.mp hcm
        rwa [show c = (slot, c.2) from by rw [← hceq]] at this
      have hgw : (slot, tasks.get ⟨slot, hs⟩) ∈ withSlots 0 tasks := by
        have := withSlots_get_mem tasks 0 slot hs
        simpa using this
      have hval : c.2 = tasks.get ⟨slot, hs⟩ :=
        withSlots_unique tasks 0 slot c.2 (tasks.get ⟨slot, hs⟩) hcw hgw
      rw [show c = (slot, c.2) from by rw [← hceq], hval]
  rw [promiseAll]
  rw [filterMap_all_some (List.range tasks.length)
    (fun slot => (sigma.find? (fun c => c.1 == slot)).map Prod.snd)
    (fun slot => (tasks[slot]?).getD dflt) ?_]
  · exact range_map_getElem dflt tasks
  · intro slot hslot
    have hs : slot < tasks.length := List.mem_range.mp hslot
    show (sigma.find? (fun c => c.1 == slot)).map Prod.snd
        = some ((tasks[slot]?).getD dflt)
    rw [hfind slot hs]
    simp [List.getElem?_eq_getElem hs]

theorem processInParallelSched_eq_aux (scrape : String → Nat → ScrapeOutcome)
    (sched : Nat → List (Nat × ScrapeOutcome) → List (Nat × ScrapeOutcome))
    (hs : ∀ i l, (sched i l).Perm l) :
    ∀ (n : Nat) (ds : List String), ds.length ≤ n → ∀ (i : Nat),
      processInParallelSched scrape sched i ds = processInParallel scrape i ds := by
  intro n
  induction n with
  | zero =>
    intro ds h i
    cases ds with
    | nil => simp [processInParallelSched, processInParallel]
    | cons d rest => simp at h
  | succ n ih =>
    intro ds h i
    cases ds with
    | nil => simp [processInParallelSched, processInParallel]
    | cons d rest =>
      rw [processInParallelSched, processInParallel]
      rw [ih ((d :: rest).drop CONCURRENT_LIMIT)
        (by simp [CONCURRENT_LIMIT] at h ⊢; omega) (i + CONCURRENT_LIMIT)]
      congr 1
      exact promiseAll_perm _ _ ((hs i _).trans (List.Perm.refl _))

theorem processInParallelSched_eq (scrape : String → Nat → ScrapeOutcome)
    (sched : Nat → List (Nat × ScrapeOutcome) → List (Nat × ScrapeOutcome))
    (hs : ∀ i l, (sched i l).Perm l) (ds : List String) (i : Nat) :
    processInParallelSched scrape sched i ds = processInParallel scrape i ds :=
  processInParallelSched_eq_aux scrape sched hs ds.length ds (Nat.le_refl _) i

theorem windowTrace_cases (scrape : String → Nat → ScrapeOutcome) (i : Nat)
    (chunk : List String) (p : Nat) (s : Step)
    (h : (windowTrace scrape i chunk)[p]? = some s) :
    (∃ d j, s = Step.start d j ∧ i ≤ j ∧ j < i + chunk.length)
    ∨ (∃ d j, s = Step.emit (scrape d j) ∧ i ≤ j ∧ j < i + chunk.length) := by
  rw [windowTrace] at h
  by_cases hp : p < (mapIdxFrom (fun k d => Step.start d k) i chunk).length
  · rw [List.getElem?_append, if_pos hp] at h
    rw [mapIdxFrom_getElem?] at h
    rcases Option.map_eq_some'.mp h with ⟨d, hd, hs⟩
    rw [mapIdxFrom_length] at hp
    exact Or.inl ⟨d, i + p, hs.symm, Nat.le_add_right i p, by omega⟩
  · push_neg at hp
    rw [List.getElem?_append, if_neg (by omega)] at h
    rw [mapIdxFrom_getElem?] at h
    rcases Option.map_eq_some'.mp h with ⟨d, hd, hs⟩
    rw [mapIdxFrom_length] at hp
    have hm : p - (mapIdxFrom (fun k d => Step.start d k) i chunk).length < chunk.length := by
      rcases List.getElem?_eq_some.mp hd with ⟨hlt, _⟩
      exact hlt
    rw [mapIdxFrom_length] at hm
    exact Or.inr ⟨d, i + (p - (mapIdxFrom (fun k d => Step.start d k) i chunk).length),
      hs.symm, Nat.le_add_right _ _, by rw [mapIdxFrom_length]; omega⟩

theorem execTrace_two_windows (scrape : String → Nat → ScrapeOutcome)
    (ds : List String) (i : Nat) (hpos : 0 < ds.length)
    (hle : ds.length ≤ 2 * CONCURRENT_LIMIT) :
    execTrace scrape i ds
      = windowTrace scrape i (ds.take CONCURRENT_LIMIT)
        ++ windowTrace scrape (i + CONCURRENT_LIMIT) (ds.drop CONCURRENT_LIMIT) := by
  cases ds with
  | nil => simp at hpos
  | cons d rest =>
    rw [execTrace]
    congr 1
    rcases hdrop : (d :: rest).drop CONCURRENT_LIMIT with _ | ⟨e, es⟩
    · simp [execTrace, windowTrace, mapIdxFrom]
    · have hlen : (e :: es).length ≤ CONCURRENT_LIMIT := by
        have h1 : ((d :: rest).drop CONCURRENT_LIMIT).length
            = (d :: rest).length - CONCURRENT_LIMIT := by simp
        rw [hdrop] at h1
        simp [CONCURRENT_LIMIT] at h1 hle ⊢
        omega
      rw [execTrace, List.take_of_length_le hlen, List.drop_eq_nil_of_le hlen]
      simp [execTrace, windowTrace, mapIdxFrom]

/-- C2: for every content string the classifier output per category equals
the registry vendors in declaration order filtered to those with at least
one matching pattern; each vendor appears at most once per category; and
classifying the same content twice yields an identical, order-stable list. -/
theorem c2_classifier_declaration_order (content : String) :
    (detectPortals content).paymentPortals
      = (PAYMENT_PATTERNS.filter (vendorMatches (lowerContent content))).map VendorDef.name
    ∧ (detectPortals content).psaPortals
      = (PSA_PATTERNS.filter (vendorMatches (lowerContent content))).map VendorDef.name
    ∧ (detectPortals content).paymentPortals.Nodup
    ∧ (detectPortals content).psaPortals.Nodup
    ∧ detectPortals content = detectPortals content := by
  refine ⟨detectPortals_payment content, detectPortals_psa content, ?_, ?_, rfl⟩
  · rw [detectPortals_payment]
    have hsub : ((PAYMENT_PATTERNS.filter (vendorMatches (lowerContent content))).map
        VendorDef.name).Sublist (PAYMENT_PATTERNS.map VendorDef.name) :=
      (List.filter_sublist _).map _
    exact List.Nodup.sublist hsub (by decide)
  · rw [detectPortals_psa]
    have hsub : ((PSA_PATTERNS.filter (vendorMatches (lowerContent content))).map
        VendorDef.name).Sublist (PSA_PATTERNS.map VendorDef.name) :=
      (List.filter_sublist _).map _
    exact List.Nodup.sublist hsub (by decide)

/-- C5: a request body that is malformed, empty, or longer than 30 domains
is rejected with the terminal non-stream 400 response by both route
variants, and no stream events are emitted; the oracle is never consulted. -/
theorem c5_invalid_rejected (body : Option (List String)) (env : Nat → FetchOutcome)
    (h : body = none ∨ ∃ ds, body = some ds ∧ (ds.length = 0 ∨ 30 < ds.length)) :
    POST body env = ApiResponse.errorResp 400
    ∧ emittedEvents (POST body env) = []
    ∧ seqPOST body env = ApiResponse.errorResp 400
    ∧ emittedEvents (seqPOST body env) = [] := by
  rcases h with rfl | ⟨ds, rfl, hlen⟩
  · exact ⟨rfl, rfl, rfl, rfl⟩
  · have hcond : ¬(1 ≤ ds.length ∧ ds.length ≤ 30) := by omega
    have hpr : parseRequest (some ds) = Except.error "Invalid request" := by
      simp [parseRequest, hcond]
    refine ⟨?_, ?_, ?_, ?_⟩ <;> simp [POST, seqPOST, emittedEvents, hpr]

theorem c5_invalid_rejected_witness :
    (some ([] : List String) = none
      ∨ ∃ ds, some ([] : List String) = some ds ∧ (ds.length = 0 ∨ 30 < ds.length))
    ∧ POST (some []) (fun _ => FetchOutcome.fail Thrown.other) = ApiResponse.errorResp 400
    ∧ emittedEvents (POST (some []) (fun _ => FetchOutcome.fail Thrown.other)) = [] :=
  ⟨Or.inr ⟨[], rfl, Or.inl rfl⟩,
   (c5_invalid_rejected (some []) (fun _ => FetchOutcome.fail Thrown.other)
     (Or.inr ⟨[], rfl, Or.inl rfl⟩)).1,
   (c5_invalid_rejected (some []) (fun _ => FetchOutcome.fail Thrown.other)
     (Or.inr ⟨[], rfl, Or.inl rfl⟩)).2.1⟩

/-- C6: a non-2xx HTTP response yields an error outcome whose description
carries the numeric HTTP status and whose portal lists are empty, in both
route variants. -/
theorem c6_http_error_outcome (status : Nat) (body d1 d2 : String) (i : Nat)
    (h : respOk status = false) :
    (scrapeWithFetch (FetchOutcome.resp status body) d1 i).status = ScrapeStatus.error
    ∧ (scrapeWithFetch (FetchOutcome.resp status body) d1 i).error
        = some ("HTTP " ++ toString status)
    ∧ subMatchS (toString status) ("HTTP " ++ toString status) = true
    ∧ (scrapeWithFetch (FetchOutcome.resp status body) d1 i).paymentPortals = []
    ∧ (scrapeWithFetch (FetchOutcome.resp status body) d1 i).psaPortals = []
    ∧ (seqScrapeDomain (FetchOutcome.resp status body) d2).status = ScrapeStatus.error
    ∧ (seqScrapeDomain (FetchOutcome.resp status body) d2).error
        = some ("HTTP " ++ toString status)
    ∧ (seqScrapeDomain (FetchOutcome.resp status body) d2).paymentPortals = []
    ∧ (seqScrapeDomain (FetchOutcome.resp status body) d2).psaPortals = [] := by
  refine ⟨?_, ?_, subMatchS_append_self "HTTP " (toString status), ?_, ?_, ?_, ?_, ?_, ?_⟩
    <;> simp [scrapeWithFetch, seqScrapeDomain, h]

theorem c6_http_error_outcome_witness :
    respOk 404 = false
    ∧ (scrapeWithFetch (FetchOutcome.resp 404 "") "a.com" 0).status = ScrapeStatus.error
    ∧ (scrapeWithFetch (FetchOutcome.resp 404 "") "a.com" 0).error
        = some ("HTTP " ++ toString 404)
    ∧ subMatchS (toString 404) ("HTTP " ++ toString 404) = true
    ∧ (scrapeWithFetch (FetchOutcome.resp 404 "") "a.com" 0).paymentPortals = [] :=
  ⟨by decide,
   (c6_http_error_outcome 404 "" "a.com" "b.com" 0 (by decide)).1,
   (c6_http_error_outcome 404 "" "a.com" "b.com" 0 (by decide)).2.1,
   (c6_http_error_outcome 404 "" "a.com" "b.com" 0 (by decide)).2.2.1,
   (c6_http_error_outcome 404 "" "a.com" "b.com" 0 (by decide)).2.2.2.1⟩

/-- C8 counterexample: httpbin.org carries no http or https scheme, yet the
code leaves it unchanged instead of prefixing https://, because the code
tests only that the string starts with the literal http; so the claim that
https:// is prefixed exactly when no scheme is present fails. -/
theorem c8_counterexample :
    hasHttpScheme "httpbin.org" = false
    ∧ resolveUrl "httpbin.org" = "httpbin.org"
    ∧ resolveUrl "httpbin.org" ≠ specResolveUrl "httpbin.org"
    ∧ specResolveUrl "httpbin.org" = "https://httpbin.org" :=
  ⟨by decide, by decide, by decide, by decide⟩

/-- C8 amended: the code prefixes https:// exactly when the domain does not
start with the literal http; in particular strings already carrying an http
or https scheme are left unchanged, but so is any bare host that happens to
begin with http. -/
theorem c8_amended_resolution (domain : String) :
    (hasHttpScheme domain = true → resolveUrl domain = domain)
    ∧ (startsWithS domain "http" = true → resolveUrl domain = domain)
    ∧ (startsWithS domain "http" = false → resolveUrl domain = "https://" ++ domain) := by
  have himp : hasHttpScheme domain = true → startsWithS domain "http" = true := by
    intro h
    simp only [hasHttpScheme, Bool.or_eq_true] at h
    rcases h with h1 | h1
    · exact prefMatch_trans (by decide) h1
    · exact prefMatch_trans (by decide) h1
  refine ⟨fun h => ?_, fun h => ?_, fun h => ?_⟩
  · rw [resolveUrl, if_pos (himp h)]
  · rw [resolveUrl, if_pos h]
  · rw [resolveUrl, if_neg (by simp [h])]

theorem c8_amended_resolution_witness :
    resolveUrl "https://example.com" = "https://example.com"
    ∧ resolveUrl "example.com" = "https://" ++ "example.com"
    ∧ resolveUrl "httpbin.org" = "httpbin.org" :=
  ⟨(c8_amended_resolution "https://example.com").2.1 (by decide),
   (c8_amended_resolution "example.com").2.2 (by decide),
   (c8_amended_resolution "httpbin.org").2.1 (by decide)⟩

theorem classifyFetchError_cases (nm msg : String) :
    classifyFetchError (Thrown.jsError nm msg) = "Timeout"
    ∨ classifyFetchError (Thrown.jsError nm msg) = "DNS error"
    ∨ classifyFetchError (Thrown.jsError nm msg) = "Connection refused"
    ∨ classifyFetchError (Thrown.jsError nm msg) = "SSL error"
    ∨ classifyFetchError (Thrown.jsError nm msg) = sliceTo 50 msg := by
  simp only [classifyFetchError]
  split_ifs <;> simp

/-- C3 counterexample: an Error whose message reports a connection reset is
not classified into a dedicated connection-reset bucket, as the claim
requires; the code has no such branch and returns the truncated raw
message, diverging from the spec-worded classifier on this input. -/
theorem c3_counterexample :
    classifyFetchError (Thrown.jsError "Error" "read ECONNRESET")
      ≠ specClassifyFetchError (Thrown.jsError "Error" "read ECONNRESET")
    ∧ classifyFetchError (Thrown.jsError "Error" "read ECONNRESET") = "read ECONNRESET"
    ∧ specClassifyFetchError (Thrown.jsError "Error" "read ECONNRESET")
      = "Connection reset" :=
  ⟨by decide, by decide, by decide⟩

/-- C3 amended: a fetch that fails before producing a response is classified
into exactly one of timeout, DNS failure, connection refused, TLS failure,
or the unknown bucket (fixed Unknown error text for a non-Error value, the
thrown message truncated to at most 50 characters otherwise); connection
resets fall into the unknown bucket.  The classification, always at most 50
characters long, is surfaced verbatim in the outcome error field. -/
theorem c3_amended_taxonomy (t : Thrown) (d : String) (i : Nat) :
    (scrapeWithFetch (FetchOutcome.fail t) d i).error = some (classifyFetchError t)
    ∧ (classifyFetchError t = "Timeout" ∨ classifyFetchError t = "DNS error"
        ∨ classifyFetchError t = "Connection refused" ∨ classifyFetchError t = "SSL error"
        ∨ classifyFetchError t = "Unknown error"
        ∨ ∃ nm msg, t = Thrown.jsError nm msg ∧ classifyFetchError t = sliceTo 50 msg)
    ∧ (classifyFetchError t).length ≤ 50 := by
  refine ⟨rfl, ?_, ?_⟩
  · cases t with
    | other => exact Or.inr (Or.inr (Or.inr (Or.inr (Or.inl rfl))))
    | jsError nm msg =>
      rcases classifyFetchError_cases nm msg with h | h | h | h | h
      · exact Or.inl h
      · exact Or.inr (Or.inl h)
      · exact Or.inr (Or.inr (Or.inl h))
      · exact Or.inr (Or.inr (Or.inr (Or.inl h)))
      · exact Or.inr (Or.inr (Or.inr (Or.inr (Or.inr ⟨nm, msg, rfl, h⟩))))
  · cases t with
    | other => decide
    | jsError nm msg =>
      rcases classifyFetchError_cases nm msg with h | h | h | h | h
      · rw [h]; decide
      · rw [h]; decide
      · rw [h]; decide
      · rw [h]; decide
      · rw [h]; exact sliceTo_length_le 50 msg

/-- C7: per-domain errors are recovered locally into error outcomes by both
scrapers, which are total functions of the fetch outcome; and the outcome
at position k of a batch is a function of only that position's domain and
that position's fetch outcome, so one domain's failure never alters another
domain's outcome. -/
theorem c7_local_recovery_isolation (r : FetchOutcome) (t : Thrown) (d : String) (i : Nat)
    (domains : List String) (env : Nat → FetchOutcome) (k : Nat) (dk : String)
    (hk : domains[k]? = some dk) :
    ((scrapeWithFetch r d i).status = ScrapeStatus.done
        ∧ (scrapeWithFetch r d i).error = none
      ∨ (scrapeWithFetch r d i).status = ScrapeStatus.error
        ∧ (scrapeWithFetch r d i).error.isSome = true)
    ∧ (scrapeWithFetch (FetchOutcome.fail t) d i).status = ScrapeStatus.error
    ∧ (scrapeWithFetch (FetchOutcome.fail t) d i).error = some (classifyFetchError t)
    ∧ (scrapeWithFirecrawl (FirecrawlResult.thrown t) d i).status = ScrapeStatus.error
    ∧ (scrapeWithFirecrawl (FirecrawlResult.thrown t) d i).error.isSome = true
    ∧ (runResults env domains)[k]? = some (scrapeWithFetch (env k) dk k) := by
  refine ⟨?_, rfl, rfl, ?_, ?_, ?_⟩
  · cases r with
    | resp status body =>
      simp only [scrapeWithFetch]
      split
      · exact Or.inl ⟨rfl, rfl⟩
      · exact Or.inr ⟨rfl, rfl⟩
    | fail t2 => exact Or.inr ⟨rfl, rfl⟩
  · cases t <;> rfl
  · cases t <;> rfl
  · rw [runResults_getElem?, hk]
    rfl

theorem c7_local_recovery_isolation_witness :
    (["a.com"] : List String)[0]? = some "a.com"
    ∧ (runResults (fun _ => FetchOutcome.fail Thrown.other) ["a.com"])[0]?
        = some (scrapeWithFetch (FetchOutcome.fail Thrown.other) "a.com" 0)
    ∧ (scrapeWithFetch (FetchOutcome.fail Thrown.other) "a.com" 0).status
        = ScrapeStatus.error :=
  ⟨rfl,
   (c7_local_recovery_isolation (FetchOutcome.resp 200 "") Thrown.other "a.com" 0
     ["a.com"] (fun _ => FetchOutcome.fail Thrown.other) 0 "a.com" rfl).2.2.2.2.2,
   (c7_local_recovery_isolation (FetchOutcome.resp 200 "") Thrown.other "a.com" 0
     ["a.com"] (fun _ => FetchOutcome.fail Thrown.other) 0 "a.com" rfl).2.1⟩

/-- C9: content containing the js.stripe.com marker and matching no pattern
of any other vendor in either registry classifies to exactly the Stripe
payment portal and an empty PSA list. -/
theorem c9_stripe_only (content : String)
    (h1 : subMatchS "js.stripe.com" content = true)
    (h2 : ∀ v ∈ PAYMENT_PATTERNS, v.name ≠ "Stripe" →
      ∀ p ∈ v.patterns, subMatchS p (lowerContent content) = false)
    (h3 : ∀ v ∈ PSA_PATTERNS, ∀ p ∈ v.patterns, subMatchS p (lowerContent content) = false) :
    (detectPortals content).paymentPortals = ["Stripe"]
    ∧ (detectPortals content).psaPortals = [] := by
  have h1l : subMatch ("js.stripe.com".data) content.data = true := h1
  have hlow0 : subMatch ("js.stripe.com".data.map Char.toLower)
      (content.data.map Char.toLower) = true := subMatch_map Char.toLower h1l
  have hmap : ("js.stripe.com".data.map Char.toLower) = "js.stripe.com".data := by decide
  rw [hmap] at hlow0
  have hstripe : subMatchS "stripe.com" (lowerContent content) = true := by
    show subMatch ("stripe.com".data) (lowerContent content).data = true
    exact subMatch_trans (by decide) hlow0
  have hcong : ∀ v ∈ PAYMENT_PATTERNS,
      vendorMatches (lowerContent content) v = (v.name == "Stripe") := by
    intro v hv
    by_cases hn : v.name = "Stripe"
    · have hveq : v = ⟨"Stripe",
          ["stripe.com", "js.stripe.com", "checkout.stripe.com", "stripe("]⟩ := by
        simp only [PAYMENT_PATTERNS, List.mem_cons, List.not_mem_nil, or_false] at hv
        rcases hv with rfl | rfl | rfl | rfl | rfl | rfl | rfl | rfl
        · rfl
        all_goals exact absurd hn (by decide)
      rw [hveq]
      simp only [vendorMatches, List.any_cons, List.any_nil, Bool.or_eq_true]
      rw [show ((⟨"Stripe",
          ["stripe.com", "js.stripe.com", "checkout.stripe.com", "stripe("]⟩ :
            VendorDef).name == "Stripe") = true from rfl]
      simp [hstripe]
    · rw [vendorMatches_false_of _ _ (h2 v hv hn)]
      exact (beq_eq_false_iff_ne.mpr hn).symm
  have hfilter : PAYMENT_PATTERNS.filter (vendorMatches (lowerContent content))
      = PAYMENT_PATTERNS.filter (fun v => v.name == "Stripe") :=
    List.filter_congr hcong
  have hpsa : PSA_PATTERNS.filter (vendorMatches (lowerContent content)) = [] := by
    rw [List.filter_eq_nil_iff]
    intro v hv
    simp [vendorMatches_false_of _ _ (h3 v hv)]
  constructor
  · rw [detectPortals_payment, hfilter]
    decide
  · rw [detectPortals_psa, hpsa]
    rfl

theorem c9_stripe_only_witness :
    subMatchS "js.stripe.com" "js.stripe.com" = true
    ∧ (detectPortals "js.stripe.com").paymentPortals = ["Stripe"]
    ∧ (detectPortals "js.stripe.com").psaPortals = [] :=
  ⟨by decide,
   (c9_stripe_only "js.stripe.com" (by decide) (by decide) (by decide)).1,
   (c9_stripe_only "js.stripe.com" (by decide) (by decide) (by decide)).2⟩

/-- C1: for every valid request of n domains (1 to 30), both route variants
stream exactly n result events and exactly one batch-complete event, every
result precedes the terminal marker, the k-th result carries index k and
echoes the k-th input domain, and the route returns the stream closed after
the terminator. -/
theorem c1_stream_contract (domains : List String) (env : Nat → FetchOutcome)
    (h1 : 1 ≤ domains.length) (h2 : domains.length ≤ 30) :
    ((streamEvents env domains).countP isResultEv = domains.length
      ∧ (streamEvents env domains).countP isCompleteEv = 1
      ∧ (∀ p o, (streamEvents env domains)[p]? = some (StreamEvent.result o)
          → p < (streamEvents env domains).length - 1)
      ∧ (streamEvents env domains)[(streamEvents env domains).length - 1]?
          = some StreamEvent.batchComplete
      ∧ (∀ k d, domains[k]? = some d → ∃ o : ScrapeOutcome,
          (resultsOf (streamEvents env domains))[k]? = some o
          ∧ o.index = k ∧ o.domain = d)
      ∧ POST (some domains) env = ApiResponse.streamResp (streamEvents env domains) true)
    ∧ ((seqEvents env domains).countP isResultEv = domains.length
      ∧ (seqEvents env domains).countP isCompleteEv = 1
      ∧ (∀ p o, (seqEvents env domains)[p]? = some (StreamEvent.result o)
          → p < (seqEvents env domains).length - 1)
      ∧ (seqEvents env domains)[(seqEvents env domains).length - 1]?
          = some StreamEvent.batchComplete
      ∧ (∀ k d, domains[k]? = some d → ∃ o : ScrapeOutcome,
          (resultsOf (seqEvents env domains))[k]? = some o
          ∧ o.index = k ∧ o.domain = d)
      ∧ seqPOST (some domains) env
          = ApiResponse.streamResp (seqEvents env domains) true) := by
  have hok : parseRequest (some domains) = Except.ok domains := by
    simp [parseRequest, h1, h2]
  have hshape : streamEvents env domains
      = (StreamEvent.info "fetch" :: (runResults env domains).map StreamEvent.result)
        ++ [StreamEvent.batchComplete] := rfl
  have hlenA : ((StreamEvent.info "fetch"
      :: (runResults env domains).map StreamEvent.result)
        ++ [StreamEvent.batchComplete]).length - 1
      = (StreamEvent.info "fetch"
          :: (runResults env domains).map StreamEvent.result).length := by
    simp
  have hlenB : (seqBody env 0 domains ++ [StreamEvent.batchComplete]).length - 1
      = (seqBody env 0 domains).length := by
    simp
  refine ⟨⟨streamEvents_countP_result env domains,
      streamEvents_countP_complete env domains, ?_, ?_, ?_, ?_⟩,
    ⟨seqEvents_countP_result env domains, seqEvents_countP_complete env domains,
      ?_, ?_, ?_, ?_⟩⟩
  · intro p o hp
    rw [hshape] at hp
    have := result_before_terminator _ p o hp
    rw [hshape]
    simp only [List.length_append, List.length_singleton]
    omega
  · rw [hshape, hlenA]
    exact terminator_at_end _
  · intro k d hk
    rw [resultsOf_streamEvents, runResults_getElem?, hk]
    exact ⟨scrapeWithFetch (env k) d k, rfl,
      scrapeWithFetch_index (env k) d k, scrapeWithFetch_domain (env k) d k⟩
  · simp [POST, hok]
  · intro p o hp
    rw [show seqEvents env domains
        = seqBody env 0 domains ++ [StreamEvent.batchComplete] from rfl] at hp
    have := result_before_terminator _ p o hp
    rw [show seqEvents env domains
        = seqBody env 0 domains ++ [StreamEvent.batchComplete] from rfl]
    simp only [List.length_append, List.length_singleton]
    omega
  · rw [show seqEvents env domains
        = seqBody env 0 domains ++ [StreamEvent.batchComplete] from rfl, hlenB]
    exact terminator_at_end _
  · intro k d hk
    rw [resultsOf_seqEvents, mapIdxFrom_getElem?, hk]
    refine ⟨seqOutcome env k d, by simp, rfl, ?_⟩
    show (seqScrapeDomain (env k) d).domain = d
    exact seqScrapeDomain_domain (env k) d
  · simp [seqPOST, hok]

theorem c1_stream_contract_witness :
    1 ≤ (["example.com"] : List String).length
    ∧ (["example.com"] : List String).length ≤ 30
    ∧ (streamEvents (fun _ => FetchOutcome.fail Thrown.other) ["example.com"]).countP
        isResultEv = (["example.com"] : List String).length
    ∧ (seqEvents (fun _ => FetchOutcome.fail Thrown.other) ["example.com"]).countP
        isCompleteEv = 1 :=
  ⟨by decide, by decide,
   (c1_stream_contract ["example.com"] (fun _ => FetchOutcome.fail Thrown.other)
     (by decide) (by decide)).1.1,
   (c1_stream_contract ["example.com"] (fun _ => FetchOutcome.fail Thrown.other)
     (by decide) (by decide)).2.2.1⟩

/-- C4: windows are of fixed size 5; the trace of a 7-domain batch is the
window of positions 0 to 4 (all started, then all resolved and emitted)
followed by the window of positions 5 and 6; every emission of the first
window precedes every start of the second window; and the emitted result
indices are 0,1,2,3,4 then 5,6. -/
theorem c4_window_barrier (domains : List String) (env : Nat → FetchOutcome)
    (h7 : domains.length = 7) :
    CONCURRENT_LIMIT = 5
    ∧ execTrace (fetchScrape env) 0 domains
        = windowTrace (fetchScrape env) 0 (domains.take CONCURRENT_LIMIT)
          ++ windowTrace (fetchScrape env) CONCURRENT_LIMIT (domains.drop CONCURRENT_LIMIT)
    ∧ (runResults env domains).map ScrapeOutcome.index = [0, 1, 2, 3, 4, 5, 6]
    ∧ (∀ (p q : Nat) (o : ScrapeOutcome) (d : String) (j : Nat),
        (execTrace (fetchScrape env) 0 domains)[p]? = some (Step.emit o) → o.index < 5 →
        (execTrace (fetchScrape env) 0 domains)[q]? = some (Step.start d j) → 5 ≤ j →
        p < q) := by
  have hdecomp : execTrace (fetchScrape env) 0 domains
      = windowTrace (fetchScrape env) 0 (domains.take CONCURRENT_LIMIT)
        ++ windowTrace (fetchScrape env) CONCURRENT_LIMIT
            (domains.drop CONCURRENT_LIMIT) := by
    have := execTrace_two_windows (fetchScrape env) domains 0 (by omega)
      (by rw [h7]; decide)
    simpa using this
  have htake : (domains.take CONCURRENT_LIMIT).length = 5 := by
    rw [List.length_take, h7]
    decide
  have hW0len : (windowTrace (fetchScrape env) 0 (domains.take CONCURRENT_LIMIT)).length
      = 10 := by
    rw [windowTrace, List.length_append, mapIdxFrom_length, mapIdxFrom_length, htake]
  refine ⟨rfl, hdecomp, ?_, ?_⟩
  · rw [runResults_map_index, h7]
    rfl
  · intro p q o d j hp hlt hq hj
    rw [hdecomp] at hp hq
    have hq10 : 10 ≤ q := by
      by_contra hq10
      push_neg at hq10
      rw [List.getElem?_append, if_pos (by omega)] at hq
      rcases windowTrace_cases _ _ _ _ _ hq with ⟨d2, j2, hsj, hb1, hb2⟩
        | ⟨d2, j2, hsj, hb1, hb2⟩
      · rw [htake] at hb2
        injection hsj with hd hj2
        omega
      · simp at hsj
    have hp10 : p < 10 := by
      by_contra hge
      push_neg at hge
      rw [List.getElem?_append, if_neg (by omega)] at hp
      rcases windowTrace_cases _ _ _ _ _ hp with ⟨d2, j2, hsj, hb1, hb2⟩
        | ⟨d2, j2, hsj, hb1, hb2⟩
      · simp at hsj
      · injection hsj with ho
        have hidx : (fetchScrape env d2 j2).index = j2 :=
          scrapeWithFetch_index (env j2) d2 j2
        rw [ho, hidx] at hlt
        have : CONCURRENT_LIMIT ≤ j2 := hb1
        simp [CONCURRENT_LIMIT] at this
        omega
    omega

theorem c4_window_barrier_witness :
    (runResults (fun _ => FetchOutcome.fail Thrown.other)
        ["a", "b", "c", "d", "e", "f", "g"]).map ScrapeOutcome.index
      = [0, 1, 2, 3, 4, 5, 6] :=
  (c4_window_barrier ["a", "b", "c", "d", "e", "f", "g"]
    (fun _ => FetchOutcome.fail Thrown.other) (by decide)).2.2.1

/-- C10: the emitted outcome sequence of the windowed orchestrator does not
depend on the completion order of the concurrent calls inside a window
(Promise.all resolves in input order for every completion permutation),
and the result sequence of a batch is sorted by strictly ascending index,
its index sequence being exactly 0,...,n-1. -/
theorem c10_promise_all_order (domains : List String) (env : Nat → FetchOutcome)
    (sched : Nat → List (Nat × ScrapeOutcome) → List (Nat × ScrapeOutcome))
    (hs : ∀ i l, (sched i l).Perm l) :
    processInParallelSched (fetchScrape env) sched 0 domains
      = processInParallel (fetchScrape env) 0 domains
    ∧ (runResults env domains).map ScrapeOutcome.index = List.range domains.length
    ∧ ((runResults env domains).map ScrapeOutcome.index).Pairwise (· < ·) := by
  refine ⟨processInParallelSched_eq (fetchScrape env) sched hs domains 0,
    runResults_map_index env domains, ?_⟩
  rw [runResults_map_index]
  exact List.pairwise_lt_range _

theorem c10_promise_all_order_witness :
    processInParallelSched (fetchScrape (fun _ => FetchOutcome.fail Thrown.other))
        (fun _ l => l.reverse) 0 ["a", "b", "c", "d", "e", "f"]
      = processInParallel (fetchScrape (fun _ => FetchOutcome.fail Thrown.other)) 0
          ["a", "b", "c", "d", "e", "f"]
    ∧ (runResults (fun _ => FetchOutcome.fail Thrown.other)
        ["a", "b", "c", "d", "e", "f"]).map ScrapeOutcome.index = List.range 6 :=
  ⟨(c10_promise_all_order ["a", "b", "c", "d", "e", "f"]
      (fun _ => FetchOutcome.fail Thrown.other) (fun _ l => l.reverse)
      (fun _ l => List.reverse_perm l)).1,
   (c10_promise_all_order ["a", "b", "c", "d", "e", "f"]
      (fun _ => FetchOutcome.fail Thrown.other) (fun _ l => l.reverse)
      (fun _ l => List.reverse_perm l)).2.1⟩
